import Mathlib

/-!
# A shallow embedding of the rkvm server switching engine

This file models the switching engine of the rkvm server
(`src/server/src/main.rs`, function `run`, event loop at lines 144-247)
and proves the specified properties about it.

The engine owns a roster of clients, a target index `current`, and two
chord maps (`switch_key_states`, `kill_key_states`).  Each iteration of
the loop processes exactly one of three inputs: an inbound `Message`
from a client session, a local input `Event` from the capture source,
or a client registration.  We model one loop iteration as a pure step
function from the engine state and the input to an outcome.

External collaborators are modelled as oracles:
* the local clipboard content at the moment `clipboard::get_text()` is
  called is an `Option String` carried by the event input
  (`None` models an empty/unavailable clipboard);
* whether a send on a client's unbounded outbound channel succeeds is
  the `connected` flag of the client record (a send on a channel whose
  receiver was dropped fails; this is the only failure mode of
  `UnboundedSender::send`).

Side effects (sends, local writes, notifications, clipboard sets) are
recorded in order in an effect trace.  A Rust panic (`usize` underflow
or `Vec` index out of bounds) is modelled as the `panicked` outcome.
-/

namespace Rkvm

/-- `Direction` from the input crate: key transition direction. -/
inductive Direction where
  | down
  | up
deriving DecidableEq, Repr

/-- A local input event, as seen by the engine.  `key` is
`Event::Key { direction, kind: KeyKind::Key(code) }` (key codes are
modelled as `Nat`); `button` is `Event::Key` with `KeyKind::Button`
(no chord accounting); `other` stands for the opaque movement / sync
events that pass through unchanged. -/
inductive Event where
  | key (direction : Direction) (code : Nat)
  | button (direction : Direction)
  | other
deriving DecidableEq, Repr

/-- The wire `Message` variants used by the engine. -/
inductive Message where
  | hello (name : String)
  | event (e : Event)
  | setClipboardData (text : String)
  | getClipboardData
  | notifyMsg (text : String)
  | keepAlive
deriving DecidableEq, Repr

/-- A client record: `Client { name, sender }`.  `connected` is the
oracle for whether sends on the outbound channel succeed. -/
structure Client where
  name : String
  connected : Bool
deriving DecidableEq, Repr

/-- A chord map (`HashMap<Key, bool>`): association list with distinct
keys (the maps are built from `HashSet`s, so keys never repeat). -/
abbrev ChordMap := List (Nat × Bool)

/-- `map.get_mut(&key)` followed by `*state = direction == Down`:
update the entry for `k` (if present) to `v`. -/
def setKey (m : ChordMap) (k : Nat) (v : Bool) : ChordMap :=
  m.map (fun p => if p.1 == k then (p.1, v) else p)

/-- Whether the chord map has an entry for `k`
(`map.get_mut(&key)` returning `Some`). -/
def containsKey (m : ChordMap) (k : Nat) : Bool :=
  m.any (fun p => p.1 == k)

/-- The chord firing test of the source, literally:
`map.iter().filter(|(_, state)| **state).count() == map.len()`. -/
def fires (m : ChordMap) : Bool :=
  (m.filter (fun p => p.2)).length == m.length

/-- `for state in map.values_mut() \x7b *state = false; \x7d`. -/
def resetChord (m : ChordMap) : ChordMap :=
  m.map (fun p => (p.1, false))

/-- The engine-owned state of the `run` loop. -/
structure EngineState where
  clients : List Client
  current : Nat
  switchState : ChordMap
  killState : ChordMap
deriving DecidableEq, Repr

/-- One observable side effect of a loop iteration, in program order. -/
inductive Effect where
  /-- `clients[idx].sender.send(m)` succeeded. -/
  | sent (idx : Nat) (m : Message)
  /-- `clients[idx].sender.send(m)` failed (receiver dropped); logged. -/
  | sendFailed (idx : Nat) (m : Message)
  /-- `manager.notify(text)`: local desktop notification. -/
  | localNotify (text : String)
  /-- `clipboard::set_text(text)`: install into the local clipboard. -/
  | setLocalClipboard (text : String)
  /-- `manager.write(event)`: inject the event into the local system. -/
  | writeLocal (e : Event)
deriving DecidableEq, Repr

/-- Outcome of one loop iteration: continue with a new state, return
an error from `run` (engine-fatal), or panic (Rust `usize` underflow /
out-of-bounds `Vec` index). -/
inductive StepOutcome where
  | ok (s : EngineState) (fx : List Effect)
  | fatal (reason : String) (s : EngineState) (fx : List Effect)
  | panicked (fx : List Effect)
deriving DecidableEq, Repr

/-- The notification text `"I'm over here now!"` (main.rs lines 195,
198); the apostrophe is spelled via its code point. -/
def overHere : String :=
  "I" ++ String.singleton (Char.ofNat 39) ++ "m over here now!"

/-- An attempted send to `clients[idx]`: `sent` when the channel is
open, `sendFailed` (logged) otherwise. -/
def attemptSend (idx : Nat) (c : Client) (m : Message) : Effect :=
  if c.connected then .sent idx m else .sendFailed idx m

/-- Chord accounting (main.rs lines 176-182): on a key event, update
whichever chord map contains the key — the switch map is tried first,
and the kill map only when the switch map lacks the key (`else if`). -/
def updateKeyStates (e : Event) (s : EngineState) : EngineState :=
  match e with
  | .key direction code =>
      if containsKey s.switchState code then
        { s with switchState := setKey s.switchState code (direction == .down) }
      else if containsKey s.killState code then
        { s with killState := setKey s.killState code (direction == .down) }
      else s
  | _ => s

/-- The switch-chord fire branch (main.rs lines 185-219): reset the
switch map, advance `current` modulo `clients.len() + 1`, notify, and
hand off the clipboard.  `clip` is what `clipboard::get_text()` would
return at this moment. -/
def switchFire (clip : Option String) (s : EngineState) : StepOutcome :=
  let s1 : EngineState := { s with switchState := resetChord s.switchState }
  let previous := s1.current
  let cur := (previous + 1) % (s1.clients.length + 1)
  let s2 : EngineState := { s1 with current := cur }
  let notifyFx : Option (List Effect) :=
    if cur = 0 then
      some [.localNotify overHere]
    else
      match s2.clients[cur - 1]? with
      | some c =>
          some (if c.connected then
                  [.sent (cur - 1) (.notifyMsg overHere),
                   .localNotify ("Switched to " ++ c.name)]
                else
                  [.sendFailed (cur - 1) (.notifyMsg overHere)])
      | none => none
  match notifyFx with
  | none => .panicked []
  | some nfx =>
    if previous = 0 then
      match clip with
      | some text =>
          -- `let idx = current - 1;` with `current == 0` underflows the
          -- usize (debug) or indexes `clients[usize::MAX]` (release):
          -- a panic either way.
          if cur = 0 then .panicked nfx
          else
            match s2.clients[cur - 1]? with
            | some c =>
                .ok s2 (nfx ++ [attemptSend (cur - 1) c (.setClipboardData text)])
            | none => .panicked nfx
      | none => .ok s2 nfx
    else
      match s2.clients[previous - 1]? with
      | some c =>
          .ok s2 (nfx ++ [attemptSend (previous - 1) c .getClipboardData])
      | none => .panicked nfx

/-- Event delivery when no chord fired (main.rs lines 227-240): if a
remote target is current, send the event to it; on send failure log,
remove that client, reset `current` to `0` and fall through to the
local write; if the local target is current, write the event locally. -/
def forwardEvent (s : EngineState) (e : Event) : StepOutcome :=
  if s.current ≠ 0 then
    match s.clients[s.current - 1]? with
    | some c =>
        if c.connected then
          .ok s [.sent (s.current - 1) (.event e)]
        else
          .ok { s with clients := s.clients.eraseIdx (s.current - 1), current := 0 }
            [.sendFailed (s.current - 1) (.event e), .writeLocal e]
    | none => .panicked []
  else
    .ok s [.writeLocal e]

/-- One iteration of the local-input branch (main.rs lines 174-241):
chord accounting, then switch chord, else kill chord, else forward the
event to the current target (with removal on send failure) or write it
locally. -/
def stepEvent (clip : Option String) (s0 : EngineState) (e : Event) : StepOutcome :=
  let s := updateKeyStates e s0
  if fires s.switchState then
    switchFire clip s
  else if fires s.killState then
    .fatal "Kilt" { s with killState := resetChord s.killState } []
  else
    forwardEvent s e

/-- One iteration of the inbound-message branch (main.rs lines
157-172): only `SetClipboardData` has an effect. -/
def stepMessage (s : EngineState) (m : Message) : StepOutcome :=
  match m with
  | .setClipboardData text =>
      if s.current = 0 then
        .ok s [.setLocalClipboard text]
      else
        match s.clients[s.current - 1]? with
        | some c => .ok s [attemptSend (s.current - 1) c (.setClipboardData text)]
        | none => .panicked []
  | _ => .ok s []

/-- One input to the engine loop: an inbound message, a local event
(together with the clipboard-content oracle for this instant), or a
client registration (`Err` is a fatal listener failure, propagated by
the `?` in `clients.push(sender.unwrap()?)`). -/
inductive EngineInput where
  | msg (m : Message)
  | event (clip : Option String) (e : Event)
  | register (r : Except String Client)
deriving Repr

/-- One full iteration of the `run` select loop. -/
def step (s : EngineState) (i : EngineInput) : StepOutcome :=
  match i with
  | .msg m => stepMessage s m
  | .event clip e => stepEvent clip s e
  | .register (.ok c) => .ok { s with clients := s.clients ++ [c] } []
  | .register (.error reason) => .fatal reason s []

/-- The state the loop starts from (main.rs lines 144-154): empty
roster, `current = 0`, every configured chord key not pressed. -/
def initState (switchKeys killKeys : List Nat) : EngineState :=
  { clients := []
    current := 0
    switchState := switchKeys.map (fun k => (k, false))
    killState := killKeys.map (fun k => (k, false)) }

/-- Marks the clipboard-protocol send attempts (`SetClipboardData` /
`GetClipboardData` to a client) among the effects of a step. -/
def isClipboardAttempt : Effect → Bool
  | .sent _ (.setClipboardData _) => true
  | .sendFailed _ (.setClipboardData _) => true
  | .sent _ .getClipboardData => true
  | .sendFailed _ .getClipboardData => true
  | _ => false

/-- Run the engine over a list of inputs, continuing while each
iteration ends in the continuing (`ok`) outcome — exactly as the
`run` loop does. -/
def runOk (s : EngineState) (l : List EngineInput) : Option EngineState :=
  match l with
  | [] => some s
  | i :: rest =>
      match step s i with
      | .ok s2 _ => runOk s2 rest
      | _ => none

/-- Invariant P1: the target index never exceeds the roster length. -/
def Inv (s : EngineState) : Prop :=
  s.current ≤ s.clients.length

/-- P1 holds of the state an outcome carries (a panic aborts the
process, so there is no post-state to constrain). -/
def OutcomeInv : StepOutcome → Prop
  | .ok s _ => Inv s
  | .fatal _ s _ => Inv s
  | .panicked _ => True

instance (s : EngineState) : Decidable (Inv s) :=
  inferInstanceAs (Decidable (_ ≤ _))

instance (o : StepOutcome) : Decidable (OutcomeInv o) := by
  cases o <;> simp only [OutcomeInv, Inv] <;> infer_instance

/-! ## Basic lemmas about the engine step -/

/-- Chord accounting never touches the roster. -/
theorem updateKeyStates_clients (e : Event) (s : EngineState) :
    (updateKeyStates e s).clients = s.clients := by
  cases e <;> simp only [updateKeyStates] <;> first | rfl | (split_ifs <;> rfl)

/-- Chord accounting never touches the target index. -/
theorem updateKeyStates_current (e : Event) (s : EngineState) :
    (updateKeyStates e s).current = s.current := by
  cases e <;> simp only [updateKeyStates] <;> first | rfl | (split_ifs <;> rfl)

/-- The source's firing test counts the pressed entries; it succeeds
exactly when every entry is pressed. -/
theorem fires_iff (m : ChordMap) :
    fires m = true ↔ ∀ p ∈ m, p.2 = true := by
  simp only [fires, beq_iff_eq]
  exact List.filter_length_eq_length

/-- Every entry of a reset chord map is unpressed. -/
theorem resetChord_all_false (m : ChordMap) :
    ∀ p ∈ resetChord m, p.2 = false := by
  intro p hp
  simp only [resetChord, List.mem_map] at hp
  obtain ⟨q, _, rfl⟩ := hp
  rfl

/-- The wrapped successor stays within the roster bound. -/
theorem mod_le_len (c L : Nat) : (c + 1) % (L + 1) ≤ L :=
  Nat.lt_succ_iff.mp (Nat.mod_lt _ (Nat.succ_pos L))

/-- The switch-fire branch always yields a state satisfying P1. -/
theorem switchFire_outcomeInv (clip : Option String) (s : EngineState) :
    OutcomeInv (switchFire clip s) := by
  unfold switchFire
  dsimp only
  repeat' split
  all_goals first
    | trivial
    | exact mod_le_len s.current s.clients.length

/-- The local-event branch preserves P1. -/
theorem stepEvent_outcomeInv (clip : Option String) (s : EngineState) (e : Event)
    (hs : Inv s) : OutcomeInv (stepEvent clip s e) := by
  have hc : Inv (updateKeyStates e s) := by
    simp only [Inv, updateKeyStates_clients, updateKeyStates_current]
    exact hs
  unfold stepEvent forwardEvent
  dsimp only
  repeat' split
  all_goals first
    | trivial
    | exact switchFire_outcomeInv clip (updateKeyStates e s)
    | exact hc
    | exact Nat.zero_le _

/-- The inbound-message branch preserves P1 (it never changes state). -/
theorem stepMessage_outcomeInv (s : EngineState) (m : Message)
    (hs : Inv s) : OutcomeInv (stepMessage s m) := by
  unfold stepMessage
  repeat' split
  all_goals first | trivial | exact hs

/-- Every engine step preserves P1. -/
theorem step_outcomeInv (s : EngineState) (i : EngineInput)
    (hs : Inv s) : OutcomeInv (step s i) := by
  cases i with
  | msg m => exact stepMessage_outcomeInv s m hs
  | event clip e => exact stepEvent_outcomeInv clip s e hs
  | register r =>
      cases r with
      | ok c =>
          simp only [step, OutcomeInv, Inv, List.length_append, List.length_cons,
            List.length_nil] at hs ⊢
          omega
      | error reason => exact hs

/-- Characterization of a successful switch fire: the post-state has
the switch map reset, the target advanced modulo `len + 1`, and the
roster and kill map untouched. -/
theorem switchFire_ok (clip : Option String) (s s2 : EngineState) (fx : List Effect)
    (h : switchFire clip s = .ok s2 fx) :
    s2 = { s with switchState := resetChord s.switchState,
                  current := (s.current + 1) % (s.clients.length + 1) } := by
  unfold switchFire at h
  dsimp only at h
  repeat' split at h
  all_goals cases h
  all_goals rfl

/-- A switch fire never returns an engine-fatal outcome. -/
theorem switchFire_ne_fatal (clip : Option String) (s : EngineState)
    (r : String) (s2 : EngineState) (fx : List Effect) :
    switchFire clip s ≠ .fatal r s2 fx := by
  unfold switchFire
  dsimp only
  repeat' split
  all_goals intro h
  all_goals cases h

/-- An empty switch map stays empty through chord accounting. -/
theorem updateKeyStates_switchState_empty (e : Event) (s : EngineState)
    (h : s.switchState = []) : (updateKeyStates e s).switchState = [] := by
  cases e with
  | key d c =>
      simp only [updateKeyStates, h, containsKey, List.any_nil, Bool.false_eq_true,
        if_false]
      split <;> first | rfl | exact h
  | button d => exact h
  | other => exact h

/-! ## The claims -/

/-- **C1.**  Empty client roster, switch chord fired by the final
`Down` of its single configured key: with an *empty* local clipboard
the step is the claimed no-op `0 → 0` transition — chord state reset,
one local notification, normal completion.  But with a *non-empty*
local clipboard the very same step reaches `let idx = current - 1`
with `current == 0` (main.rs line 208): the usize subtraction
underflows (debug) or indexes `clients[usize::MAX]` (release), a panic
either way, refuting "completes normally ... regardless of the local
clipboard contents". -/
theorem C1_empty_roster_switch :
    stepEvent none ⟨[], 0, [(1, false)], [(2, false)]⟩ (.key .down 1) =
      .ok ⟨[], 0, [(1, false)], [(2, false)]⟩ [.localNotify overHere] ∧
    stepEvent (some "hi") ⟨[], 0, [(1, false)], [(2, false)]⟩ (.key .down 1) =
      .panicked [.localNotify overHere] :=
  ⟨rfl, rfl⟩

/-- **C2**, counterexample: key `1` belongs to both chord sets.  After
accounting for `Down 1`, the switch map records the key as pressed,
but the kill map still records it as *not* pressed: the `else if` at
main.rs line 179 skips the kill map whenever the switch map owns the
key, so the key is not updated in both maps as claimed. -/
theorem C2_overlap_counterexample :
    (updateKeyStates (.key .down 1)
        ⟨[], 0, [(1, false), (2, false)], [(1, false)]⟩).switchState
      = [(1, true), (2, false)] ∧
    (updateKeyStates (.key .down 1)
        ⟨[], 0, [(1, false), (2, false)], [(1, false)]⟩).killState
      = [(1, false)] ∧
    ([(1, false)] : ChordMap) ≠ [(1, true)] := by
  refine ⟨rfl, rfl, by decide⟩

/-- **C2**, amended: for a key event whose code belongs to both the
switch and the kill chord sets, chord accounting updates the key's
pressed state in the switch map only and leaves the kill map
unchanged (the switch map is tried first, the kill map only when the
switch map lacks the key). -/
theorem C2_overlap_amended (s : EngineState) (d : Direction) (k : Nat)
    (hsw : containsKey s.switchState k = true)
    (hki : containsKey s.killState k = true) :
    (updateKeyStates (.key d k) s).switchState = setKey s.switchState k (d == .down) ∧
    (updateKeyStates (.key d k) s).killState = s.killState := by
  simp [updateKeyStates, hsw]

/-- **C2**, amended, instantiated at key `1` present in both maps. -/
theorem C2_overlap_amended_witness :
    (updateKeyStates (.key .down 1)
        ⟨[], 0, [(1, false), (2, false)], [(1, false)]⟩).switchState
      = setKey [(1, false), (2, false)] 1 (Direction.down == Direction.down) ∧
    (updateKeyStates (.key .down 1)
        ⟨[], 0, [(1, false), (2, false)], [(1, false)]⟩).killState
      = [(1, false)] :=
  C2_overlap_amended ⟨[], 0, [(1, false), (2, false)], [(1, false)]⟩ .down 1
    (by decide) (by decide)

/-- **C9.**  Invariant P2: whatever the physical key situation, in any
local-event step in which the switch chord fires and that continues
(`ok`), every switch-map entry of the post-state is `false`; and in
any step in which the kill chord fires (switch not firing), the fatal
outcome carries a state whose kill-map entries are all `false`. -/
theorem C9_p2_chord_reset (clip : Option String) (s : EngineState) (e : Event) :
    (fires (updateKeyStates e s).switchState = true →
      ∀ s2 fx, stepEvent clip s e = .ok s2 fx →
        ∀ p ∈ s2.switchState, p.2 = false) ∧
    (fires (updateKeyStates e s).switchState = false →
      fires (updateKeyStates e s).killState = true →
      ∀ r s2 fx, stepEvent clip s e = .fatal r s2 fx →
        ∀ p ∈ s2.killState, p.2 = false) := by
  constructor
  · intro hf s2 fx h
    have hstep : stepEvent clip s e = switchFire clip (updateKeyStates e s) := by
      unfold stepEvent
      dsimp only
      rw [if_pos hf]
    rw [hstep] at h
    have h2 := switchFire_ok clip (updateKeyStates e s) s2 fx h
    subst h2
    exact resetChord_all_false _
  · intro hs hf r s2 fx h
    unfold stepEvent at h
    dsimp only at h
    rw [if_neg, if_pos hf] at h
    · cases h
      exact resetChord_all_false _
    · simp [hs]

/-- **C9**, instantiated: a kill fire resets the kill map. -/
theorem C9_p2_chord_reset_witness :
    ∀ r s2 fx,
      stepEvent none ⟨[], 0, [(1, false)], [(5, false)]⟩ (.key .down 5) =
        .fatal r s2 fx →
      ∀ p ∈ s2.killState, p.2 = false :=
  (C9_p2_chord_reset none ⟨[], 0, [(1, false)], [(5, false)]⟩ (.key .down 5)).2
    (by decide) (by decide)

/-- **C7.**  Within a local-event step (kill map non-empty, as the
configuration precondition `cardinality ≥ 1` guarantees): the switch
chord is evaluated first and a switch fire never reaches the kill
check (no fatal outcome); the kill chord fires iff every value in its
map is `true` (and the map is non-empty); and a kill fire resets the
kill map and terminates the loop with the fatal error `"Kilt"` — the
`fatal` outcome is precisely `run` returning an error. -/
theorem C7_kill_chord (clip : Option String) (s : EngineState) (e : Event)
    (hk : (updateKeyStates e s).killState ≠ []) :
    (fires (updateKeyStates e s).switchState = true →
      ∀ r s2 fx, stepEvent clip s e ≠ .fatal r s2 fx) ∧
    (fires (updateKeyStates e s).killState = true ↔
      ((∀ p ∈ (updateKeyStates e s).killState, p.2 = true) ∧
        (updateKeyStates e s).killState ≠ [])) ∧
    (fires (updateKeyStates e s).switchState = false →
      fires (updateKeyStates e s).killState = true →
      stepEvent clip s e =
        .fatal "Kilt"
          { updateKeyStates e s with
              killState := resetChord (updateKeyStates e s).killState } []) := by
  refine ⟨?_, ?_, ?_⟩
  · intro hf r s2 fx h
    have hstep : stepEvent clip s e = switchFire clip (updateKeyStates e s) := by
      unfold stepEvent
      dsimp only
      rw [if_pos hf]
    rw [hstep] at h
    exact switchFire_ne_fatal clip (updateKeyStates e s) r s2 fx h
  · rw [fires_iff]
    exact ⟨fun h => ⟨h, hk⟩, fun h => h.1⟩
  · intro hs hf
    unfold stepEvent
    dsimp only
    rw [if_neg, if_pos hf]
    simp [hs]

/-- **C7**, instantiated: kill key `5` completes the kill chord and
the step is fatal `"Kilt"` with the kill map reset. -/
theorem C7_kill_chord_witness :
    (fires (updateKeyStates (.key .down 5)
        ⟨[], 0, [(1, false)], [(5, false)]⟩).killState = true ↔
      ((∀ p ∈ (updateKeyStates (.key .down 5)
          ⟨[], 0, [(1, false)], [(5, false)]⟩).killState, p.2 = true) ∧
        (updateKeyStates (.key .down 5)
          ⟨[], 0, [(1, false)], [(5, false)]⟩).killState ≠ [])) ∧
    stepEvent none ⟨[], 0, [(1, false)], [(5, false)]⟩ (.key .down 5) =
      .fatal "Kilt"
        { updateKeyStates (.key .down 5) ⟨[], 0, [(1, false)], [(5, false)]⟩ with
            killState := resetChord (updateKeyStates (.key .down 5)
              ⟨[], 0, [(1, false)], [(5, false)]⟩).killState } [] :=
  ⟨(C7_kill_chord none ⟨[], 0, [(1, false)], [(5, false)]⟩ (.key .down 5)
      (by decide)).2.1,
   (C7_kill_chord none ⟨[], 0, [(1, false)], [(5, false)]⟩ (.key .down 5)
      (by decide)).2.2 (by decide) (by decide)⟩

/-- **C10.**  The engine itself never checks that the chord maps are
non-empty: when the switch map is empty, the all-pressed count test is
vacuously true, so the switch chord fires on *every* local input
event — the step always takes the switch-fire branch. -/
theorem C10_empty_switch_always_fires (clip : Option String) (s : EngineState)
    (e : Event) (h : s.switchState = []) :
    fires (updateKeyStates e s).switchState = true ∧
    stepEvent clip s e = switchFire clip (updateKeyStates e s) := by
  have h2 := updateKeyStates_switchState_empty e s h
  have hf : fires (updateKeyStates e s).switchState = true := by
    rw [h2]; rfl
  refine ⟨hf, ?_⟩
  unfold stepEvent
  dsimp only
  rw [if_pos hf]

/-- **C10**, instantiated: with no configured switch key, even a bare
mouse event fires the switch chord. -/
theorem C10_empty_switch_always_fires_witness :
    fires (updateKeyStates .other ⟨[], 0, [], [(5, false)]⟩).switchState = true ∧
    stepEvent none ⟨[], 0, [], [(5, false)]⟩ .other =
      switchFire none (updateKeyStates .other ⟨[], 0, [], [(5, false)]⟩) :=
  C10_empty_switch_always_fires none ⟨[], 0, [], [(5, false)]⟩ .other rfl

/-- **C6.**  Inbound messages: every variant other than
`SetClipboardData` leaves the state unchanged and produces no effect;
`SetClipboardData(text)` is installed into the local clipboard when
`current == 0` and otherwise forwarded to `clients[current-1]` as a
single send attempt whose failure is merely logged — in every case the
state (roster *and* `current`) is returned unchanged. -/
theorem C6_inbound_message (s : EngineState) :
    (∀ m : Message, (∀ text, m ≠ .setClipboardData text) →
      stepMessage s m = .ok s []) ∧
    (∀ text, s.current = 0 →
      stepMessage s (.setClipboardData text) = .ok s [.setLocalClipboard text]) ∧
    (∀ text c, s.current ≠ 0 → s.clients[s.current - 1]? = some c →
      stepMessage s (.setClipboardData text) =
        .ok s [attemptSend (s.current - 1) c (.setClipboardData text)]) := by
  refine ⟨?_, ?_, ?_⟩
  · intro m hm
    cases m with
    | setClipboardData text => exact absurd rfl (hm text)
    | hello name => rfl
    | event e => rfl
    | getClipboardData => rfl
    | notifyMsg text => rfl
    | keepAlive => rfl
  · intro text h0
    simp only [stepMessage]
    rw [if_pos h0]
  · intro text c hc hsome
    simp only [stepMessage]
    rw [if_neg hc, hsome]

/-- **C6**, instantiated: a keep-alive is ignored; a clipboard set is
installed locally at `current = 0` and forwarded at `current = 1`. -/
theorem C6_inbound_message_witness :
    stepMessage ⟨[⟨"laptop", true⟩], 1, [(1, false)], [(5, false)]⟩ .keepAlive =
      .ok ⟨[⟨"laptop", true⟩], 1, [(1, false)], [(5, false)]⟩ [] ∧
    stepMessage ⟨[⟨"laptop", true⟩], 0, [(1, false)], [(5, false)]⟩
        (.setClipboardData "x") =
      .ok ⟨[⟨"laptop", true⟩], 0, [(1, false)], [(5, false)]⟩
        [.setLocalClipboard "x"] ∧
    stepMessage ⟨[⟨"laptop", true⟩], 1, [(1, false)], [(5, false)]⟩
        (.setClipboardData "x") =
      .ok ⟨[⟨"laptop", true⟩], 1, [(1, false)], [(5, false)]⟩
        [attemptSend 0 ⟨"laptop", true⟩ (.setClipboardData "x")] :=
  ⟨(C6_inbound_message ⟨[⟨"laptop", true⟩], 1, [(1, false)], [(5, false)]⟩).1
      .keepAlive (fun _ h => Message.noConfusion h),
   (C6_inbound_message ⟨[⟨"laptop", true⟩], 0, [(1, false)], [(5, false)]⟩).2.1
      "x" rfl,
   (C6_inbound_message ⟨[⟨"laptop", true⟩], 1, [(1, false)], [(5, false)]⟩).2.2
      "x" ⟨"laptop", true⟩ (by decide) rfl⟩

/-- The inbound-message branch always returns the state it was given. -/
theorem stepMessage_ok_state (s : EngineState) (m : Message) (s2 : EngineState)
    (fx : List Effect) (h : stepMessage s m = .ok s2 fx) : s2 = s := by
  unfold stepMessage at h
  repeat' split at h
  all_goals cases h
  all_goals rfl

/-- The inbound-message branch is never engine-fatal. -/
theorem stepMessage_ne_fatal (s : EngineState) (m : Message) (r : String)
    (s2 : EngineState) (fx : List Effect) : stepMessage s m ≠ .fatal r s2 fx := by
  unfold stepMessage
  repeat' split
  all_goals intro h
  all_goals cases h

/-- Roster evolution of the local-event branch: either the roster is
untouched, or the step is the send-failure removal of
`clients[current-1]` with `current` reset to `0` and the event written
locally. -/
theorem stepEvent_ok_clients (clip : Option String) (s : EngineState) (e : Event)
    (s2 : EngineState) (fx : List Effect) (h : stepEvent clip s e = .ok s2 fx) :
    s2.clients = s.clients ∨
      (s.current ≠ 0 ∧ s2.clients = s.clients.eraseIdx (s.current - 1) ∧
        s2.current = 0 ∧
        fx = [.sendFailed (s.current - 1) (.event e), .writeLocal e]) := by
  unfold stepEvent at h
  dsimp only at h
  split at h
  · left
    have h2 := switchFire_ok _ _ _ _ h
    subst h2
    exact updateKeyStates_clients e s
  · split at h
    · cases h
    · unfold forwardEvent at h
      split at h
      · split at h
        · split at h
          · cases h
            left
            exact updateKeyStates_clients e s
          · cases h
            rename_i hcur xo c2 heq hcn
            right
            rw [updateKeyStates_current e s] at hcur
            refine ⟨hcur, ?_, rfl, ?_⟩
            · show (updateKeyStates e s).clients.eraseIdx
                  ((updateKeyStates e s).current - 1) = _
              rw [updateKeyStates_clients e s, updateKeyStates_current e s]
            · rw [updateKeyStates_current e s]
        · cases h
      · cases h
        left
        exact updateKeyStates_clients e s

/-- A fatal local-event step (kill fire) never changes the roster. -/
theorem stepEvent_fatal_clients (clip : Option String) (s : EngineState) (e : Event)
    (r : String) (s2 : EngineState) (fx : List Effect)
    (h : stepEvent clip s e = .fatal r s2 fx) : s2.clients = s.clients := by
  unfold stepEvent at h
  dsimp only at h
  split at h
  · exact absurd h (switchFire_ne_fatal _ _ _ _ _)
  · split at h
    · cases h
      exact updateKeyStates_clients e s
    · unfold forwardEvent at h
      repeat' split at h
      all_goals cases h

theorem isClipboardAttempt_attemptSend_set (i : Nat) (c : Client) (t : String) :
    isClipboardAttempt (attemptSend i c (.setClipboardData t)) = true := by
  unfold attemptSend
  split <;> rfl

theorem isClipboardAttempt_attemptSend_get (i : Nat) (c : Client) :
    isClipboardAttempt (attemptSend i c .getClipboardData) = true := by
  unfold attemptSend
  split <;> rfl

theorem isClipboardAttempt_localNotify (t : String) :
    isClipboardAttempt (.localNotify t) = false := rfl

theorem isClipboardAttempt_sent_notify (i : Nat) (t : String) :
    isClipboardAttempt (.sent i (.notifyMsg t)) = false := rfl

theorem isClipboardAttempt_sendFailed_notify (i : Nat) (t : String) :
    isClipboardAttempt (.sendFailed i (.notifyMsg t)) = false := rfl

/-- Full behaviour of a switch fire from a P1 state with a non-empty
roster: it continues (never panics, never fatal), carries the state
with the switch map reset and the target advanced modulo
`len(clients) + 1`, and its clipboard-protocol effects are exactly the
specified handoff. -/
theorem switchFire_spec (clip : Option String) (s : EngineState)
    (hinv : s.current ≤ s.clients.length) (hne : s.clients ≠ []) :
    ∃ fx,
      switchFire clip s =
        .ok { s with switchState := resetChord s.switchState,
                     current := (s.current + 1) % (s.clients.length + 1) } fx ∧
      (s.current = 0 →
        (clip = none ∧ fx.filter isClipboardAttempt = []) ∨
        (∃ text c, clip = some text ∧
          s.clients[(s.current + 1) % (s.clients.length + 1) - 1]? = some c ∧
          fx.filter isClipboardAttempt =
            [attemptSend ((s.current + 1) % (s.clients.length + 1) - 1) c
              (.setClipboardData text)])) ∧
      (s.current ≠ 0 →
        ∃ c, s.clients[s.current - 1]? = some c ∧
          fx.filter isClipboardAttempt =
            [attemptSend (s.current - 1) c .getClipboardData]) := by
  have hL : 0 < s.clients.length := List.length_pos.mpr hne
  by_cases hp : s.current = 0
  · have hcur1 : 1 % (s.clients.length + 1) = 1 := Nat.mod_eq_of_lt (by omega)
    obtain ⟨c0, hc0r⟩ : ∃ c, s.clients[(0 : Nat)]? = some c :=
      ⟨_, List.getElem?_eq_getElem (by omega)⟩
    have hc0 : s.clients[(s.current + 1) % (s.clients.length + 1) - 1]? = some c0 := by
      rw [hp, Nat.zero_add, hcur1]
      exact hc0r
    by_cases hcc : c0.connected = true
    · rcases clip with _ | text
      · refine ⟨[.sent 0 (.notifyMsg overHere),
            .localNotify ("Switched to " ++ c0.name)], ?_, ?_, ?_⟩
        · simp [switchFire, hcur1, hp, hc0r, hcc]
        · intro _
          exact Or.inl ⟨rfl, by simp [isClipboardAttempt]⟩
        · intro h0
          exact absurd hp h0
      · refine ⟨[.sent 0 (.notifyMsg overHere),
            .localNotify ("Switched to " ++ c0.name),
            .sent 0 (.setClipboardData text)], ?_, ?_, ?_⟩
        · simp [switchFire, hcur1, hp, hc0r, hcc, attemptSend]
        · intro _
          refine Or.inr ⟨text, c0, rfl, hc0, ?_⟩
          simp [isClipboardAttempt, attemptSend, hcc, hcur1]
          rw [hp, Nat.zero_add, hcur1]
        · intro h0
          exact absurd hp h0
    · rcases clip with _ | text
      · refine ⟨[.sendFailed 0 (.notifyMsg overHere)], ?_, ?_, ?_⟩
        · simp [switchFire, hcur1, hp, hc0r, hcc]
        · intro _
          exact Or.inl ⟨rfl, by simp [isClipboardAttempt]⟩
        · intro h0
          exact absurd hp h0
      · refine ⟨[.sendFailed 0 (.notifyMsg overHere),
            .sendFailed 0 (.setClipboardData text)], ?_, ?_, ?_⟩
        · simp [switchFire, hcur1, hp, hc0r, hcc, attemptSend]
        · intro _
          refine Or.inr ⟨text, c0, rfl, hc0, ?_⟩
          simp [isClipboardAttempt, attemptSend, hcc, hcur1]
          rw [hp, Nat.zero_add, hcur1]
        · intro h0
          exact absurd hp h0
  · obtain ⟨cp, hcp⟩ : ∃ c, s.clients[s.current - 1]? = some c :=
      ⟨_, List.getElem?_eq_getElem (by omega)⟩
    by_cases hcz : (s.current + 1) % (s.clients.length + 1) = 0
    · refine ⟨[.localNotify overHere,
          attemptSend (s.current - 1) cp .getClipboardData], ?_, ?_, ?_⟩
      · simp [switchFire, hcz, hp, hcp, attemptSend]
      · intro h0
        exact absurd h0 hp
      · intro _
        refine ⟨cp, hcp, ?_⟩
        simp [List.filter_cons, List.filter_nil, isClipboardAttempt_attemptSend_get,
          isClipboardAttempt_localNotify, isClipboardAttempt_sent_notify,
          isClipboardAttempt_sendFailed_notify]
    · have hcub : (s.current + 1) % (s.clients.length + 1) - 1 < s.clients.length := by
        have := mod_le_len s.current s.clients.length
        omega
      obtain ⟨c0, hc0⟩ :
          ∃ c, s.clients[(s.current + 1) % (s.clients.length + 1) - 1]? = some c :=
        ⟨_, List.getElem?_eq_getElem hcub⟩
      by_cases hcc : c0.connected = true
      · refine ⟨[.sent ((s.current + 1) % (s.clients.length + 1) - 1)
              (.notifyMsg overHere),
            .localNotify ("Switched to " ++ c0.name),
            attemptSend (s.current - 1) cp .getClipboardData], ?_, ?_, ?_⟩
        · simp [switchFire, hcz, hp, hcp, hc0, hcc, attemptSend]
        · intro h0
          exact absurd h0 hp
        · intro _
          refine ⟨cp, hcp, ?_⟩
          simp [List.filter_cons, List.filter_nil, isClipboardAttempt_attemptSend_get,
          isClipboardAttempt_localNotify, isClipboardAttempt_sent_notify,
          isClipboardAttempt_sendFailed_notify]
      · refine ⟨[.sendFailed ((s.current + 1) % (s.clients.length + 1) - 1)
              (.notifyMsg overHere),
            attemptSend (s.current - 1) cp .getClipboardData], ?_, ?_, ?_⟩
        · simp [switchFire, hcz, hp, hcp, hc0, hcc, attemptSend]
        · intro h0
          exact absurd h0 hp
        · intro _
          refine ⟨cp, hcp, ?_⟩
          simp [List.filter_cons, List.filter_nil, isClipboardAttempt_attemptSend_get,
          isClipboardAttempt_localNotify, isClipboardAttempt_sent_notify,
          isClipboardAttempt_sendFailed_notify]

/-- **C5.**  Removal on send failure: (1) when no chord fires, the
current target is remote and its outbound channel is closed, the step
logs the failed send, removes exactly `clients[current-1]`, resets
`current` to `0` and then writes the same event locally, in that
order; (2) an `ok` step changes the roster only by a registration
append or by exactly that removal; (3) a fatal step never changes the
roster — so the input-event send failure is the sole removal path. -/
theorem C5_send_failure_removal :
    (∀ (clip : Option String) (s : EngineState) (e : Event) (c : Client),
      fires (updateKeyStates e s).switchState = false →
      fires (updateKeyStates e s).killState = false →
      s.current ≠ 0 →
      s.clients[s.current - 1]? = some c →
      c.connected = false →
      ∃ s2, stepEvent clip s e =
          .ok s2 [.sendFailed (s.current - 1) (.event e), .writeLocal e] ∧
        s2.clients = s.clients.eraseIdx (s.current - 1) ∧ s2.current = 0) ∧
    (∀ (s : EngineState) (i : EngineInput) (s2 : EngineState) (fx : List Effect),
      step s i = .ok s2 fx →
      s2.clients = s.clients ∨
        (∃ c, i = .register (.ok c) ∧ s2.clients = s.clients ++ [c]) ∨
        (∃ clip e, i = .event clip e ∧ s.current ≠ 0 ∧
          s2.clients = s.clients.eraseIdx (s.current - 1) ∧ s2.current = 0 ∧
          fx = [.sendFailed (s.current - 1) (.event e), .writeLocal e])) ∧
    (∀ (s : EngineState) (i : EngineInput) (r : String) (s2 : EngineState)
        (fx : List Effect),
      step s i = .fatal r s2 fx → s2.clients = s.clients) := by
  refine ⟨?_, ?_, ?_⟩
  · intro clip s e c hsw hki hcur hsome hconn
    have hcur2 : (updateKeyStates e s).current ≠ 0 := by
      rw [updateKeyStates_current e s]; exact hcur
    have hsome2 : (updateKeyStates e s).clients[(updateKeyStates e s).current - 1]?
        = some c := by
      rw [updateKeyStates_clients e s, updateKeyStates_current e s]; exact hsome
    refine ⟨{ updateKeyStates e s with
        clients := (updateKeyStates e s).clients.eraseIdx
          ((updateKeyStates e s).current - 1), current := 0 }, ?_, ?_, rfl⟩
    · unfold stepEvent
      dsimp only
      rw [if_neg (by simp [hsw]), if_neg (by simp [hki])]
      unfold forwardEvent
      rw [if_pos hcur2, hsome2]
      dsimp only
      rw [if_neg (by simp [hconn]), updateKeyStates_current e s]
    · show (updateKeyStates e s).clients.eraseIdx ((updateKeyStates e s).current - 1) = _
      rw [updateKeyStates_clients e s, updateKeyStates_current e s]
  · intro s i s2 fx h
    cases i with
    | msg m =>
        left
        rw [stepMessage_ok_state s m s2 fx h]
    | event clip e =>
        rcases stepEvent_ok_clients clip s e s2 fx h with h2 | h2
        · exact Or.inl h2
        · exact Or.inr (Or.inr ⟨clip, e, rfl, h2.1, h2.2.1, h2.2.2.1, h2.2.2.2⟩)
    | register r =>
        cases r with
        | ok c =>
            cases h
            exact Or.inr (Or.inl ⟨c, rfl, rfl⟩)
        | error reason => cases h
  · intro s i r s2 fx h
    cases i with
    | msg m => exact absurd h (stepMessage_ne_fatal s m r s2 fx)
    | event clip e => exact stepEvent_fatal_clients clip s e r s2 fx h
    | register x =>
        cases x with
        | ok c => cases h
        | error reason => cases h; rfl

/-- **C4.**  Clipboard handoff on a switch fire with a non-empty
roster: the step continues with the target advanced, and the
clipboard-protocol messages among its effects are exactly: from a
local `previous` (and then the new `current` is never `0`), one
`SetClipboardData` of the local clipboard to `clients[current-1]`
(none at all when the clipboard is empty); from a remote `previous`,
one `GetClipboardData` to `clients[previous-1]` — never both, never in
the other direction, never skipped. -/
theorem C4_clipboard_handoff (clip : Option String) (s : EngineState) (e : Event)
    (hinv : Inv s) (hne : s.clients ≠ [])
    (hf : fires (updateKeyStates e s).switchState = true) :
    ∃ s2 fx, stepEvent clip s e = .ok s2 fx ∧
      s2.current = (s.current + 1) % (s.clients.length + 1) ∧
      (s.current = 0 →
        (clip = none ∧ fx.filter isClipboardAttempt = []) ∨
        (∃ text c, clip = some text ∧
          s.clients[(s.current + 1) % (s.clients.length + 1) - 1]? = some c ∧
          fx.filter isClipboardAttempt =
            [attemptSend ((s.current + 1) % (s.clients.length + 1) - 1) c
              (.setClipboardData text)])) ∧
      (s.current ≠ 0 →
        ∃ c, s.clients[s.current - 1]? = some c ∧
          fx.filter isClipboardAttempt =
            [attemptSend (s.current - 1) c .getClipboardData]) := by
  have hstep : stepEvent clip s e = switchFire clip (updateKeyStates e s) := by
    unfold stepEvent
    dsimp only
    rw [if_pos hf]
  have h1 := updateKeyStates_clients e s
  have h2 := updateKeyStates_current e s
  obtain ⟨fx, hok, hloc, hrem⟩ :=
    switchFire_spec clip (updateKeyStates e s)
      (by rw [h2, h1]; exact hinv) (by rw [h1]; exact hne)
  rw [h1, h2] at hok hloc hrem
  refine ⟨_, fx, by rw [hstep, hok], rfl, hloc, hrem⟩

/-- **C4**, instantiated (the spec's scenario 1): one connected client,
switch chord completed at `current = 0` with clipboard `"hi"`; the
sole clipboard effect is `SetClipboardData "hi"` sent to client `0`. -/
theorem C4_clipboard_handoff_witness :
    ∃ s2 fx,
      stepEvent (some "hi")
          ⟨[⟨"laptop", true⟩], 0, [(1, true), (2, false)], [(5, false)]⟩
          (.key .down 2) = .ok s2 fx ∧
      s2.current = (0 + 1) % (1 + 1) ∧
      ((0 : Nat) = 0 →
        (some "hi" = none ∧ fx.filter isClipboardAttempt = []) ∨
        (∃ text c, some "hi" = some text ∧
          ([⟨"laptop", true⟩] : List Client)[(0 + 1) % (1 + 1) - 1]? = some c ∧
          fx.filter isClipboardAttempt =
            [attemptSend ((0 + 1) % (1 + 1) - 1) c (.setClipboardData text)])) ∧
      ((0 : Nat) ≠ 0 →
        ∃ c, ([⟨"laptop", true⟩] : List Client)[0 - 1]? = some c ∧
          fx.filter isClipboardAttempt =
            [attemptSend (0 - 1) c .getClipboardData]) :=
  C4_clipboard_handoff (some "hi")
    ⟨[⟨"laptop", true⟩], 0, [(1, true), (2, false)], [(5, false)]⟩
    (.key .down 2) (by decide) (by decide) (by decide)

/-- A single-key switch chord fires on every `Down` of its key: one
engine step advances the target modulo `len(clients) + 1`, resets the
chord and touches neither the roster nor the kill map. -/
theorem singleKey_fire_step (clip : Option String) (cs : List Client) (c k : Nat)
    (b : Bool) (ks : ChordMap) (hinv : c ≤ cs.length) (hne : cs ≠ []) :
    ∃ fx, stepEvent clip ⟨cs, c, [(k, b)], ks⟩ (.key .down k) =
      .ok ⟨cs, (c + 1) % (cs.length + 1), [(k, false)], ks⟩ fx := by
  have hupd : updateKeyStates (.key .down k) ⟨cs, c, [(k, b)], ks⟩
      = ⟨cs, c, [(k, true)], ks⟩ := by
    simp [updateKeyStates, containsKey, setKey]
  have hf : fires (updateKeyStates (.key .down k)
      ⟨cs, c, [(k, b)], ks⟩).switchState = true := by
    rw [hupd]
    rfl
  have hstep : stepEvent clip ⟨cs, c, [(k, b)], ks⟩ (.key .down k)
      = switchFire clip ⟨cs, c, [(k, true)], ks⟩ := by
    unfold stepEvent
    dsimp only
    rw [if_pos hf, hupd]
  obtain ⟨fx, hok, -, -⟩ := switchFire_spec clip ⟨cs, c, [(k, true)], ks⟩ hinv hne
  refine ⟨fx, ?_⟩
  rw [hstep, hok]
  rfl

/-- Iterating single-key switch fires: after `n` fires the target has
advanced by `n` modulo `len(clients) + 1` and the roster is intact. -/
theorem singleKey_fire_many (clips : List (Option String)) :
    ∀ (cs : List Client) (c k : Nat) (b : Bool) (ks : ChordMap),
      c ≤ cs.length → cs ≠ [] →
      ∃ s2, runOk ⟨cs, c, [(k, b)], ks⟩
          (clips.map (fun cl => .event cl (.key .down k))) = some s2 ∧
        s2.current = (c + clips.length) % (cs.length + 1) ∧
        s2.clients = cs := by
  induction clips with
  | nil =>
      intro cs c k b ks hinv hne
      refine ⟨⟨cs, c, [(k, b)], ks⟩, rfl, ?_, rfl⟩
      show c = (c + 0) % (cs.length + 1)
      rw [Nat.add_zero, Nat.mod_eq_of_lt (by omega)]
  | cons cl rest ih =>
      intro cs c k b ks hinv hne
      obtain ⟨fx, hstep⟩ := singleKey_fire_step cl cs c k b ks hinv hne
      obtain ⟨s2, hrun, hcur, hcl⟩ := ih cs ((c + 1) % (cs.length + 1)) k false ks
        (mod_le_len c cs.length) hne
      refine ⟨s2, ?_, ?_, hcl⟩
      · simp only [List.map_cons, runOk, step, hstep]
        exact hrun
      · rw [hcur, List.length_cons, Nat.mod_add_mod]
        congr 1
        omega

/-- **C8.**  With an empty roster and a non-empty local clipboard a
single switch fire panics instead of completing the `0 → 0` cycle
(same defect as C1), so the claim fails at `N = 0`; with at least one
client it holds: starting at `current = 0` with `N` clients, `N + 1`
consecutive switch fires (single-key chord, arbitrary clipboard
contents, no registrations or removals in between) return the engine
to `current = 0` with the roster intact, because each fire sets
`current` to `(current + 1) mod (N + 1)`. -/
theorem C8_round_trip :
    (stepEvent (some "x") ⟨[], 0, [(7, false)], [(9, false)]⟩ (.key .down 7) =
      .panicked [.localNotify overHere]) ∧
    (∀ (cs : List Client) (k : Nat) (b : Bool) (ks : ChordMap)
        (clips : List (Option String)),
      cs ≠ [] → clips.length = cs.length + 1 →
      ∃ s2, runOk ⟨cs, 0, [(k, b)], ks⟩
          (clips.map (fun cl => .event cl (.key .down k))) = some s2 ∧
        s2.current = 0 ∧ s2.clients = cs) := by
  constructor
  · rfl
  · intro cs k b ks clips hne hlen
    obtain ⟨s2, hrun, hcur, hcl⟩ :=
      singleKey_fire_many clips cs 0 k b ks (Nat.zero_le _) hne
    refine ⟨s2, hrun, ?_, hcl⟩
    rw [hcur, hlen, Nat.zero_add, Nat.mod_self]

/-- **C8**, instantiated: one client, two consecutive fires return the
target to local. -/
theorem C8_round_trip_witness :
    ∃ s2, runOk ⟨[⟨"laptop", true⟩], 0, [(7, false)], [(9, false)]⟩
        (([none, some "hi"] : List (Option String)).map
          (fun cl => .event cl (.key .down 7))) = some s2 ∧
      s2.current = 0 ∧ s2.clients = [⟨"laptop", true⟩] :=
  C8_round_trip.2 [⟨"laptop", true⟩] 7 false [(9, false)] [none, some "hi"]
    (by decide) rfl

/-- **C5**, instantiated (the spec's scenario 3): `current = 1`, the
only client's receiver is closed, a mouse event arrives; the send
fails, the roster becomes empty, `current` returns to `0`, and the
event is written locally. -/
theorem C5_send_failure_removal_witness :
    ∃ s2, stepEvent none ⟨[⟨"laptop", false⟩], 1, [(1, false), (9, false)],
        [(5, false)]⟩ .other =
      .ok s2 [.sendFailed 0 (.event .other), .writeLocal .other] ∧
      s2.clients = ([⟨"laptop", false⟩] : List Client).eraseIdx 0 ∧
      s2.current = 0 :=
  C5_send_failure_removal.1 none
    ⟨[⟨"laptop", false⟩], 1, [(1, false), (9, false)], [(5, false)]⟩ .other
    ⟨"laptop", false⟩ (by decide) (by decide) (by decide) rfl rfl

/-- **C3.**  Invariant P1: the initial state of the engine loop (empty
roster, `current = 0`) satisfies `current ≤ len(clients)`, and every
engine step — inbound message, local input event (including switch
fires and client removal), or client registration — carries a state
satisfying P1 into a state satisfying P1. -/
theorem C3_p1_invariant :
    (∀ switchKeys killKeys : List Nat, Inv (initState switchKeys killKeys)) ∧
    (∀ (s : EngineState) (i : EngineInput), Inv s → OutcomeInv (step s i)) :=
  ⟨fun _ _ => Nat.zero_le _, fun s i hs => step_outcomeInv s i hs⟩

/-- **C3**, instantiated: a registration followed by nothing keeps P1
at a concrete state. -/
theorem C3_p1_invariant_witness :
    Inv (initState [1, 2] [5]) ∧
    OutcomeInv (step ⟨[], 0, [(1, false)], [(5, false)]⟩ (.event none .other)) :=
  ⟨C3_p1_invariant.1 [1, 2] [5], C3_p1_invariant.2 _ _ (by decide)⟩

end Rkvm
